import Mathlib

/-!
controller-metrics: API call instrumentation (package `apicall`)

A shallow embedding of `pkg/apicall/observer.go` and
`pkg/apicall/crclientwrapper.go`, followed by theorems about it.

Modelling conventions

* A Go `string` is an immutable sequence of bytes: `GoString := List UInt8`.
  String literals of the source are written `goString "..."` (their UTF-8
  encoding).
* A Go panic is an `Except.error`; `defer`/`recover` is a `match` on the
  `Except` value of the function body.
* A nilable pointer is an `Option`. The request handed to a round tripper and
  the round trippers themselves are taken to be non-nil.
* Stateful code passes an explicit `World`: the clock read by `time.Now`, the
  observations recorded by Prometheus collectors, and the requests that reached
  the network.
* Of the Prometheus client, `With` is modelled by the check that makes it
  panic (label count, UTF-8 validity of the values, label names), and `Observe`
  by the observation it records.
-/

namespace apicall

/-! ## Go strings, the `strings` package and `utf8.ValidString` -/

/-- A Go string: a sequence of bytes. -/
abbrev GoString := List UInt8

/-- The bytes (UTF-8 encoding) of a string literal of the source. -/
def goString (s : String) : GoString := s.toList.flatMap String.utf8EncodeChar

/-- The ways the modelled code can panic. -/
inductive Panic where
  /-- Dereference of a nil pointer. -/
  | nilDereference
  /-- Slice expression `s[i:]` with `i > len(s)`. -/
  | sliceBounds
  /-- Index expression `s[i]` with `i >= len(s)`. -/
  | indexOutOfRange
  /-- An explicit `panic(v)` with an integer value. -/
  | value (v : Int)
  /-- The `panic(err)` of a Prometheus collector whose `With` rejects the labels. -/
  | invalidLabels
  deriving DecidableEq, Repr

/-- Slice expression `s[i:]` on a string or a slice: panics when `i > len(s)`. -/
def sliceFrom {α : Type} (s : List α) (i : Nat) : Except Panic (List α) :=
  if i ≤ s.length then .ok (s.drop i) else .error .sliceBounds

/-- Index expression `s[i]` read: panics when `i >= len(s)`. -/
def index {α : Type} (s : List α) (i : Nat) : Except Panic α :=
  match s.get? i with
  | some x => .ok x
  | none => .error .indexOutOfRange

/-- Assignment `s[i] = v` to a slice element: panics when `i >= len(s)`. -/
def assign {α : Type} (s : List α) (i : Nat) (v : α) : Except Panic (List α) :=
  if i < s.length then .ok (s.set i v) else .error .indexOutOfRange

/-- Worker of `Split`: `skip` is the number of bytes of an already matched
separator that remain to be passed over. -/
def splitFrom (sep : GoString) : Nat → GoString → List GoString
  | _, [] => [[]]
  | skip + 1, _ :: cs => splitFrom sep skip cs
  | 0, c :: cs =>
    if sep.isPrefixOf (c :: cs) then
      [] :: splitFrom sep (sep.length - 1) cs
    else
      match splitFrom sep 0 cs with
      | [] => [[c]]
      | t :: ts => (c :: t) :: ts

/-- Go `strings.Split(s, sep)` for a non-empty separator: the substrings of `s`
between the (leftmost, non-overlapping) occurrences of `sep`, empty ones
included; `Split "" sep` is the one-element slice holding the empty string. -/
def Split (s sep : GoString) : List GoString := splitFrom sep 0 s

/-- Go `strings.Join(elems, sep)`. -/
def Join (elems : List GoString) (sep : GoString) : GoString :=
  match elems with
  | [] => []
  | [e] => e
  | e :: es => e ++ sep ++ Join es sep

/-- Go `strings.ReplaceAll(s, old, new)` for a non-empty `old`: every
(leftmost, non-overlapping) occurrence of `old` in `s` is replaced by `new`. -/
def ReplaceAll (s old new : GoString) : GoString := Join (Split s old) new

/-- The first byte of a multi-byte UTF-8 sequence, as in the tables of Go
`unicode/utf8`: the number of bytes that follow it, and the range accepted for
the first of them. Bytes that cannot start a sequence give `none`. -/
def utf8First (b : UInt8) : Option (Nat × UInt8 × UInt8) :=
  if 0xC2 ≤ b ∧ b ≤ 0xDF then some (1, 0x80, 0xBF)
  else if b = 0xE0 then some (2, 0xA0, 0xBF)
  else if b = 0xED then some (2, 0x80, 0x9F)
  else if 0xE1 ≤ b ∧ b ≤ 0xEF then some (2, 0x80, 0xBF)
  else if b = 0xF0 then some (3, 0x90, 0xBF)
  else if 0xF1 ≤ b ∧ b ≤ 0xF3 then some (3, 0x80, 0xBF)
  else if b = 0xF4 then some (3, 0x80, 0x8F)
  else none

/-- Worker of `ValidString`: `pending` bytes of the current sequence are still
expected, the next of them within `lo..hi`. -/
def validFrom : Nat → UInt8 → UInt8 → GoString → Bool
  | 0, _, _, [] => true
  | _ + 1, _, _, [] => false
  | 0, _, _, b :: rest =>
    if b < 0x80 then validFrom 0 0x80 0xBF rest
    else match utf8First b with
      | some (n, lo, hi) => validFrom n lo hi rest
      | none => false
  | pending + 1, lo, hi, b :: rest =>
    if lo ≤ b ∧ b ≤ hi then validFrom pending 0x80 0xBF rest else false

/-- Go `utf8.ValidString(s)`: whether `s` consists entirely of valid
UTF-8-encoded runes. -/
def ValidString (s : GoString) : Bool := validFrom 0 0x80 0xBF s

/-! ## `net/url` and `net/http` data -/

/-- The part of `net/url.URL` the package reads. -/
structure URL where
  Path : GoString
  deriving DecidableEq, Repr

/-- The part of `net/http.Request` the package reads. `URL` is a pointer. -/
structure Request where
  Method : GoString
  URL : Option URL
  deriving DecidableEq, Repr

/-- The part of `net/http.Response` the package reads, with the numeric code. -/
structure Response where
  Status : GoString
  StatusCode : Nat
  deriving DecidableEq, Repr

/-! ## observer.go: `resourceFrom` -/

/-- Body of `resourceFrom` (observer.go lines 70-107), before the deferred
`recover` is applied. -/
def resourceFromBody (url : Option URL) : Except Panic GoString := do
  let u ← match url with
    | some u => pure u
    | none => throw Panic.nilDereference
  let path ← sliceFrom u.Path 1
  let tokens := Split path (goString "/")
  -- First normalize to $group/$version/...
  let t0 ← index tokens 0
  let tokens ←
    if t0 = goString "api" then
      assign tokens 0 (goString "core")
    else if t0 = goString "apis" then
      sliceFrom tokens 1
    else
      throw (Panic.value 1)
  -- Single resource, non-namespaced (including a namespace itself)
  let tokens ←
    if tokens.length = 4 then
      assign tokens 3 (goString "{NAME}")
    else
      pure tokens
  -- Kind or single resource, namespaced
  let namespaced ←
    if tokens.length > 4 then do
      let t2 ← index tokens 2
      pure (decide (t2 = goString "namespaces"))
    else
      pure false
  let tokens ←
    if namespaced then do
      let tokens ← assign tokens 3 (goString "{NAMESPACE}")
      if tokens.length > 5 then
        assign tokens 5 (goString "{NAME}")
      else
        pure tokens
    else
      pure tokens
  pure (Join tokens (goString "/"))

/-- Go `resourceFrom` (observer.go lines 60-108): the body, with every panic
recovered into the general bucket `{OTHER}`. -/
def resourceFrom (url : Option URL) : GoString :=
  match resourceFromBody url with
  | .ok resource => resource
  | .error _ => goString "{OTHER}"

/-- Lines 73-105 of `resourceFrom`, as a function of the token slice obtained
from the split (used to state lemmas; `resourceFromBody_cons` relates the two). -/
def resourceFromTokens (tokens : List GoString) : Except Panic GoString := do
  let t0 ← index tokens 0
  let tokens ←
    if t0 = goString "api" then
      assign tokens 0 (goString "core")
    else if t0 = goString "apis" then
      sliceFrom tokens 1
    else
      throw (Panic.value 1)
  let tokens ←
    if tokens.length = 4 then
      assign tokens 3 (goString "{NAME}")
    else
      pure tokens
  let namespaced ←
    if tokens.length > 4 then do
      let t2 ← index tokens 2
      pure (decide (t2 = goString "namespaces"))
    else
      pure false
  let tokens ←
    if namespaced then do
      let tokens ← assign tokens 3 (goString "{NAMESPACE}")
      if tokens.length > 5 then
        assign tokens 5 (goString "{NAME}")
      else
        pure tokens
    else
      pure tokens
  pure (Join tokens (goString "/"))

/-- Lines 87-103 of `resourceFrom`: the placeholder substitutions made on the
token slice once the prefix has been rewritten (used to state lemmas;
`resourceFromTokens_api` and `resourceFromTokens_apis` relate it to the code). -/
def placeholders (tokens : List GoString) : List GoString :=
  let tokens := if tokens.length = 4 then tokens.set 3 (goString "{NAME}") else tokens
  if tokens.length > 4 ∧ tokens[2]? = some (goString "namespaces") then
    let tokens := tokens.set 3 (goString "{NAMESPACE}")
    if tokens.length > 5 then tokens.set 5 (goString "{NAME}") else tokens
  else
    tokens

/-! ## The world the transports act on -/

/-- Go `time.Duration`: a signed count of nanoseconds. -/
abbrev Duration := Int

/-- Go `prometheus.Labels`: label names with their values, in the order the
source writes them. -/
abbrev Labels := List (GoString × GoString)

/-- Go `prometheus.HistogramOpts`, the fields the package sets. `Buckets` holds
the upper bounds, which the source writes as integer literals. -/
structure HistogramOpts where
  Name : GoString
  Help : GoString
  ConstLabels : Labels
  Buckets : List Int
  deriving DecidableEq, Repr

/-- A `prometheus.HistogramVec`, known by what it was built from: its options
and its variable label names. The collector itself is an external sink. -/
structure HistogramVec where
  opts : HistogramOpts
  labelNames : List GoString
  deriving DecidableEq, Repr

/-- Go `prometheus.NewHistogramVec(opts, labelNames)`. -/
def NewHistogramVec (opts : HistogramOpts) (labelNames : List GoString) : HistogramVec :=
  { opts := opts, labelNames := labelNames }

/-- The check of Go `(*prometheus.HistogramVec).With(labels)`, which panics
with the error of `GetMetricWith`: the number of labels must be the number of
variable label names of the collector, every label value must be valid UTF-8,
and every variable label name must have a value. -/
def HistogramVec.With (v : HistogramVec) (labels : Labels) : Except Panic Unit :=
  if labels.length ≠ v.labelNames.length then .error Panic.invalidLabels
  else if labels.any (fun l => !ValidString l.2) then .error Panic.invalidLabels
  else if v.labelNames.any (fun n => (labels.lookup n).isNone) then
    .error Panic.invalidLabels
  else .ok ()

/-- One call `collector.With(labels).Observe(v)`. The value is kept as the
elapsed `Duration` whose `.Seconds()` the source hands to the collector. -/
structure Observation where
  collector : HistogramVec
  labels : Labels
  elapsed : Duration
  deriving DecidableEq, Repr

/-- The state outside the package: the clock read by `time.Now`, the
observations recorded so far by the collectors (oldest first), and the requests
that have reached the network (oldest first). -/
structure World where
  clock : Int
  observations : List Observation
  wire : List Request
  deriving DecidableEq, Repr

/-- Go `error` values, known by their message. -/
abbrev Error := GoString

/-- The pair `(*http.Response, error)` returned by a round trip. -/
structure RoundTripResult where
  resp : Option Response
  err : Option Error
  deriving DecidableEq, Repr

/-! ## observer.go: `Observer` -/

/-- Go `Observer` (observer.go lines 17-19). `Collector` is a pointer. -/
structure Observer where
  Collector : Option HistogramVec
  deriving DecidableEq, Repr

/-- Go `NewAPICallObserver` (observer.go lines 26-41). -/
def NewAPICallObserver (operatorName : GoString) : Observer :=
  let name := ReplaceAll operatorName (goString "-") (goString "_")
    ++ goString "_api_request_duration_seconds"
  { Collector := some (NewHistogramVec
      { Name := name
        Help := goString "Distribution of the number of seconds an API request takes"
        ConstLabels := [(goString "name", operatorName)]
        Buckets := [1] }
      [goString "controller", goString "method", goString "resource", goString "status"]) }

/-- Go `(*Observer).observe` (observer.go lines 43-50), on a receiver and a
response that are pointers. Dereferencing a nil receiver, a nil response or a
nil collector panics, and so does `With` on labels the collector rejects. -/
def Observer.observe (o : Option Observer) (controller : GoString) (req : Request)
    (resp : Option Response) (duration : Duration) (w : World) : Except Panic World := do
  let o ← match o with
    | some o => pure o
    | none => throw Panic.nilDereference
  let resp ← match resp with
    | some resp => pure resp
    | none => throw Panic.nilDereference
  let labels : Labels :=
    [ (goString "controller", controller)
    , (goString "method", req.Method)
    , (goString "resource", resourceFrom req.URL)
    , (goString "status", resp.Status) ]
  let collector ← match o.Collector with
    | some c => pure c
    | none => throw Panic.nilDereference
  collector.With labels
  pure { w with observations := w.observations ++ [⟨collector, labels, duration⟩] }

/-! ## crclientwrapper.go -/

/-- Go `http.RoundTripper` values: either the `controllerMetricsTripper` of this
package (crclientwrapper.go lines 67-71: the embedded wrapped round tripper,
the controller name and a pointer to the observer), or any other
implementation, given by what its `RoundTrip` does to the world. -/
inductive RoundTripper where
  | transport (send : Request → World → Except Panic (RoundTripResult × World))
  | controllerMetricsTripper (wrapped : RoundTripper) (controller : GoString)
      (observer : Option Observer)

/-- Go `RoundTrip`. For a `controllerMetricsTripper` this is
crclientwrapper.go lines 75-86. -/
def RoundTripper.RoundTrip : RoundTripper → Request → World →
    Except Panic (RoundTripResult × World)
  | .transport send, req, w => send req w
  | .controllerMetricsTripper wrapped controller observer, req, w => do
    let start := w.clock
    -- Call the nested RoundTripper.
    let (res, w1) ← wrapped.RoundTrip req w
    -- Count this call, if it worked (where "worked" includes HTTP errors).
    let w2 ←
      if res.err = none then
        Observer.observe observer controller req res.resp (w1.clock - start) w1
      else
        pure w1
    pure (res, w2)

/-- The part of `rest.Config` the package touches: the optional transport
wrapper (a nil func is `none`). -/
structure Config where
  WrapTransport : Option (RoundTripper → RoundTripper)

/-- Go `addControllerMetricsTransportWrapper` (crclientwrapper.go lines 45-64).
The first assignment (lines 47-55) is followed unconditionally by the second
(lines 57-63). -/
def addControllerMetricsTransportWrapper (cfg : Config) (controllerName : GoString)
    (observer : Option Observer) : Config :=
  -- If the restConfig already has a transport wrapper, wrap it.
  let cfg : Config :=
    match cfg.WrapTransport with
    | some origFunc =>
      { cfg with WrapTransport := some (fun rt =>
          .controllerMetricsTripper (origFunc rt) controllerName none) }
    | none => cfg
  { cfg with WrapTransport := some (fun rt =>
      .controllerMetricsTripper rt controllerName observer) }

/-- A transport that reaches the network: it records the request on the wire,
lets `latency` nanoseconds pass and answers with `reply req`. -/
def networkTransport (reply : Request → RoundTripResult) (latency : Int) : RoundTripper :=
  .transport (fun req w =>
    .ok (reply req, { w with clock := w.clock + latency, wire := w.wire ++ [req] }))

/-! ## Sample values used to instantiate the theorems -/

/-- A URL with the given path. -/
def urlOf (path : String) : Option URL := some { Path := goString path }

/-- A reply function answering every request with `200 OK` and no error. -/
def replyOK : Request → RoundTripResult :=
  fun _ => { resp := some { Status := goString "200 OK", StatusCode := 200 }, err := none }

/-- A reply function answering every request with `404 Not Found` and no error. -/
def replyNotFound : Request → RoundTripResult :=
  fun _ => { resp := some { Status := goString "404 Not Found", StatusCode := 404 }, err := none }

/-- A reply function failing every request with a transport error and no response. -/
def replyRefused : Request → RoundTripResult :=
  fun _ => { resp := none, err := some (goString "connection refused") }

/-- A `GET` of one pod. -/
def getPod : Request :=
  { Method := goString "GET", URL := urlOf "/api/v1/namespaces/ns1/pods/p1" }

/-- A `GET` of the object whose name is the single byte `0xFF`, as the URL
`/api/v1/%ff` decodes to: the path is not valid UTF-8. -/
def getInvalidName : Request :=
  { Method := goString "GET", URL := some { Path := goString "/api/v1/" ++ [0xFF] } }

/-- A world in which nothing has happened yet. -/
def world0 : World := { clock := 0, observations := [], wire := [] }

/-- The collector built by `NewAPICallObserver` for the operator `my-operator`. -/
def sampleCollector : HistogramVec :=
  NewHistogramVec
    { Name := goString "my_operator_api_request_duration_seconds"
      Help := goString "Distribution of the number of seconds an API request takes"
      ConstLabels := [(goString "name", goString "my-operator")]
      Buckets := [1] }
    [goString "controller", goString "method", goString "resource", goString "status"]

/-- An observer holding `sampleCollector`. -/
def sampleObserver : Observer := { Collector := some sampleCollector }

/-! ## Lemmas on `Split` and `Join` with the separator `/` -/

theorem goString_slash : goString "/" = [47] := by decide

theorem api_ne_apis : goString "api" ≠ goString "apis" := by decide

theorem splitFrom_slash_cons (c : UInt8) (cs : GoString) :
    splitFrom [47] 0 (c :: cs) =
      if c = 47 then [] :: splitFrom [47] 0 cs
      else match splitFrom [47] 0 cs with
        | [] => [[c]]
        | t :: ts => (c :: t) :: ts := by
  by_cases h : c = 47
  · subst h; simp [splitFrom, List.isPrefixOf]
  · have h2 : ¬ (47 : UInt8) = c := fun h3 => h h3.symm
    simp [splitFrom, List.isPrefixOf, h, h2]

/-- A string without `/` splits into itself. -/
theorem Split_token (tok : GoString) (h : (47 : UInt8) ∉ tok) :
    Split tok (goString "/") = [tok] := by
  rw [goString_slash]
  unfold Split
  induction tok with
  | nil => simp [splitFrom]
  | cons c cs ih =>
    have hc : c ≠ 47 := fun e => h (by simp [e])
    have hcs : (47 : UInt8) ∉ cs := fun e => h (by simp [e])
    rw [splitFrom_slash_cons, if_neg hc, ih hcs]

/-- Splitting peels off a leading `/`-free token. -/
theorem Split_token_slash (tok rest : GoString) (h : (47 : UInt8) ∉ tok) :
    Split (tok ++ goString "/" ++ rest) (goString "/") = tok :: Split rest (goString "/") := by
  rw [goString_slash]
  unfold Split
  induction tok with
  | nil => simp [splitFrom_slash_cons]
  | cons c cs ih =>
    have hc : c ≠ 47 := fun e => h (by simp [e])
    have hcs : (47 : UInt8) ∉ cs := fun e => h (by simp [e])
    have hrec := ih hcs
    simp only [List.cons_append] at hrec ⊢
    rw [splitFrom_slash_cons, if_neg hc, hrec]

theorem Join_cons_cons (t u : GoString) (us : List GoString) (sep : GoString) :
    Join (t :: u :: us) sep = t ++ sep ++ Join (u :: us) sep := by
  simp [Join]

/-- Splitting undoes joining, for a non-empty list of `/`-free tokens. -/
theorem Split_Join (toks : List GoString) (hne : toks ≠ [])
    (h : ∀ t ∈ toks, (47 : UInt8) ∉ t) :
    Split (Join toks (goString "/")) (goString "/") = toks := by
  induction toks with
  | nil => exact absurd rfl hne
  | cons t ts ih =>
    cases ts with
    | nil => simpa [Join] using Split_token t (h t (by simp))
    | cons u us =>
      have h1 : (47 : UInt8) ∉ t := h t (by simp)
      have h2 := ih (by simp) (fun x hx => h x (by simp [hx]))
      rw [Join_cons_cons, Split_token_slash _ _ h1, h2]

/-- The first token of a split is the text before the first `/`. -/
theorem Split_head (s : GoString) :
    ∃ ts, Split s (goString "/") = s.takeWhile (fun b => b != 47) :: ts := by
  rw [goString_slash]
  unfold Split
  induction s with
  | nil => exact ⟨[], by simp [splitFrom]⟩
  | cons c cs ih =>
    obtain ⟨ts, hts⟩ := ih
    by_cases hc : c = 47
    · subst hc
      exact ⟨splitFrom [47] 0 cs, by simp [splitFrom_slash_cons]⟩
    · refine ⟨ts, ?_⟩
      have hb : (c != 47) = true := by simp [hc]
      rw [splitFrom_slash_cons, if_neg hc, hts, List.takeWhile_cons, hb]
      rfl

/-! ## Lemmas on `resourceFrom` -/

theorem resourceFromBody_cons (c : UInt8) (rest : GoString) :
    resourceFromBody (some ⟨c :: rest⟩) = resourceFromTokens (Split rest (goString "/")) := by
  simp [resourceFromBody, resourceFromTokens, sliceFrom, bind, Except.bind, pure, Except.pure]

theorem resourceFromTokens_rest (tokens : List GoString) :
    (do
      let tokens ←
        if tokens.length = 4 then
          assign tokens 3 (goString "{NAME}")
        else
          (pure tokens : Except Panic (List GoString))
      let namespaced ←
        if tokens.length > 4 then do
          let t2 ← index tokens 2
          pure (decide (t2 = goString "namespaces"))
        else
          pure false
      let tokens ←
        if namespaced then do
          let tokens ← assign tokens 3 (goString "{NAMESPACE}")
          if tokens.length > 5 then
            assign tokens 5 (goString "{NAME}")
          else
            pure tokens
        else
          pure tokens
      pure (Join tokens (goString "/"))) = .ok (Join (placeholders tokens) (goString "/")) := by
  by_cases h4 : tokens.length = 4
  · simp [h4, assign, index, placeholders, bind, Except.bind, pure, Except.pure]
  · by_cases h5 : 4 < tokens.length
    · obtain ⟨t2, ht2⟩ : ∃ t2, tokens[2]? = some t2 := by
        cases h : tokens[2]? with
        | none => rw [List.getElem?_eq_none_iff] at h; omega
        | some x => exact ⟨x, rfl⟩
      have h3 : 3 < tokens.length := by omega
      by_cases hns : t2 = goString "namespaces"
      · by_cases h6 : 5 < tokens.length
        · simp [h4, h5, h6, h3, ht2, hns, assign, index, placeholders, bind, Except.bind,
            pure, Except.pure]
        · simp [h4, h5, h6, h3, ht2, hns, assign, index, placeholders, bind, Except.bind,
            pure, Except.pure]
      · simp [h4, h5, ht2, hns, assign, index, placeholders, bind, Except.bind,
          pure, Except.pure]
    · simp [h4, h5, assign, index, placeholders, bind, Except.bind, pure, Except.pure]

/-- A token slice starting with `api`: the prefix becomes `core`. -/
theorem resourceFromTokens_api (ts : List GoString) :
    resourceFromTokens (goString "api" :: ts)
      = .ok (Join (placeholders (goString "core" :: ts)) (goString "/")) := by
  rw [← resourceFromTokens_rest]
  simp [resourceFromTokens, index, assign, bind, Except.bind, pure, Except.pure]

/-- A token slice starting with `apis`: the prefix is dropped. -/
theorem resourceFromTokens_apis (ts : List GoString) :
    resourceFromTokens (goString "apis" :: ts)
      = .ok (Join (placeholders ts) (goString "/")) := by
  rw [← resourceFromTokens_rest]
  simp [resourceFromTokens, index, sliceFrom, api_ne_apis.symm, bind, Except.bind, pure,
    Except.pure]

/-- A token slice starting with anything else: the code punts with `panic(1)`. -/
theorem resourceFromTokens_other (t : GoString) (ts : List GoString)
    (h1 : t ≠ goString "api") (h2 : t ≠ goString "apis") :
    resourceFromTokens (t :: ts) = .error (Panic.value 1) := by
  simp [resourceFromTokens, index, h1, h2, bind, Except.bind, throw, throwThe,
    MonadExceptOf.throw]

/-- The label of a path made of a first byte and `/`-joined, `/`-free tokens
starting with `api`. -/
theorem resourceFrom_api_tokens (c : UInt8) (ts : List GoString)
    (h : ∀ t ∈ ts, (47 : UInt8) ∉ t) :
    resourceFrom (some ⟨c :: Join (goString "api" :: ts) (goString "/")⟩)
      = Join (placeholders (goString "core" :: ts)) (goString "/") := by
  have hs : Split (Join (goString "api" :: ts) (goString "/")) (goString "/")
      = goString "api" :: ts := by
    apply Split_Join _ (by simp)
    intro t ht
    rcases List.mem_cons.mp ht with rfl | ht
    · decide
    · exact h t ht
  unfold resourceFrom
  rw [resourceFromBody_cons, hs, resourceFromTokens_api]

/-- The label of a path made of a first byte and `/`-joined, `/`-free tokens
starting with `apis`. -/
theorem resourceFrom_apis_tokens (c : UInt8) (ts : List GoString)
    (h : ∀ t ∈ ts, (47 : UInt8) ∉ t) :
    resourceFrom (some ⟨c :: Join (goString "apis" :: ts) (goString "/")⟩)
      = Join (placeholders ts) (goString "/") := by
  have hs : Split (Join (goString "apis" :: ts) (goString "/")) (goString "/")
      = goString "apis" :: ts := by
    apply Split_Join _ (by simp)
    intro t ht
    rcases List.mem_cons.mp ht with rfl | ht
    · decide
    · exact h t ht
  unfold resourceFrom
  rw [resourceFromBody_cons, hs, resourceFromTokens_apis]

/-! ## Claims on `resourceFrom` -/

/-- C5. The resource label is meant not to depend on object names, also for a
cluster-scoped object followed by a sub-resource. Evaluated on
`/api/v1/nodes/a/status` and `/api/v1/nodes/b/status`, two paths that differ
only in the object name, `resourceFrom` keeps the name and returns two
different labels. -/
theorem resourceFrom_cluster_subresource_keeps_name :
    resourceFrom (urlOf "/api/v1/nodes/a/status") = goString "core/v1/nodes/a/status"
    ∧ resourceFrom (urlOf "/api/v1/nodes/b/status") = goString "core/v1/nodes/b/status"
    ∧ resourceFrom (urlOf "/api/v1/nodes/a/status")
        ≠ resourceFrom (urlOf "/api/v1/nodes/b/status") := by
  refine ⟨by decide, by decide, by decide⟩

/-- C6. The documented forms put `{NAME}` (or `{NAMESPACE}`) at token index 3
whenever there is one, also when sub-path tokens follow. Evaluated on
`/api/v1/nodes/node1/proxy/metrics`, the result of `resourceFrom` is
`core/v1/nodes/node1/proxy/metrics`: its token at index 3 is the object name
`node1`, which is neither placeholder. -/
theorem resourceFrom_cluster_subpath_index3 :
    resourceFrom (urlOf "/api/v1/nodes/node1/proxy/metrics")
      = goString "core/v1/nodes/node1/proxy/metrics"
    ∧ (Split (resourceFrom (urlOf "/api/v1/nodes/node1/proxy/metrics")) (goString "/"))[3]?
      = some (goString "node1")
    ∧ goString "node1" ≠ goString "{NAME}"
    ∧ goString "node1" ≠ goString "{NAMESPACE}" := by
  refine ⟨by decide, by decide, by decide, by decide⟩

/-- C7. Cluster-scoped single resource: for every kind and name without `/`,
`resourceFrom` on `/api/v1/{kind}/{name}` returns `core/v1/{kind}/{NAME}`,
whatever the kind (so also for `namespaces`). -/
theorem resourceFrom_cluster_single (kind name : GoString)
    (hk : (47 : UInt8) ∉ kind) (hn : (47 : UInt8) ∉ name) :
    resourceFrom (some ⟨goString "/api/v1/" ++ kind ++ goString "/" ++ name⟩)
      = goString "core/v1/" ++ kind ++ goString "/{NAME}" := by
  have e1 : goString "/api/v1/"
      = 47 :: (goString "api" ++ goString "/" ++ (goString "v1" ++ goString "/")) := by decide
  have e2 : goString "core/v1/"
      = goString "core" ++ goString "/" ++ (goString "v1" ++ goString "/") := by decide
  have e3 : goString "/{NAME}" = goString "/" ++ goString "{NAME}" := by decide
  have hp : goString "/api/v1/" ++ kind ++ goString "/" ++ name
      = 47 :: Join [goString "api", goString "v1", kind, name] (goString "/") := by
    rw [e1]; simp [Join]
  rw [hp, resourceFrom_api_tokens, e2, e3]
  · simp [placeholders, Join]
  · intro t ht
    simp only [List.mem_cons, List.mem_singleton, List.not_mem_nil, or_false] at ht
    rcases ht with rfl | rfl | rfl
    · decide
    · exact hk
    · exact hn

/-- Witness of C7 at kind `namespaces`, name `kube-system`: the namespace object
itself yields `core/v1/namespaces/{NAME}`. -/
theorem resourceFrom_cluster_single_witness :
    (47 : UInt8) ∉ goString "namespaces" ∧ (47 : UInt8) ∉ goString "kube-system"
    ∧ resourceFrom
        (some ⟨goString "/api/v1/" ++ goString "namespaces" ++ goString "/"
          ++ goString "kube-system"⟩)
      = goString "core/v1/" ++ goString "namespaces" ++ goString "/{NAME}" :=
  ⟨by decide, by decide,
    resourceFrom_cluster_single (goString "namespaces") (goString "kube-system")
      (by decide) (by decide)⟩

/-- C8. Namespaced single resource with optional sub-path: for `/`-free group,
version, ns, kind, name and further segments `ss`, the path
`/apis/{group}/{version}/namespaces/{ns}/{kind}/{name}/ss..` is labelled
`{group}/{version}/namespaces/{NAMESPACE}/{kind}/{NAME}/ss..`, and the path
`/api/{version}/namespaces/{ns}/{kind}/{name}/ss..` is labelled
`core/{version}/namespaces/{NAMESPACE}/{kind}/{NAME}/ss..`; the trailing
segments are kept verbatim. -/
theorem resourceFrom_namespaced_single (group version ns kind name : GoString)
    (ss : List GoString)
    (hg : (47 : UInt8) ∉ group) (hv : (47 : UInt8) ∉ version) (hns : (47 : UInt8) ∉ ns)
    (hk : (47 : UInt8) ∉ kind) (hn : (47 : UInt8) ∉ name)
    (hss : ∀ s ∈ ss, (47 : UInt8) ∉ s) :
    resourceFrom (some ⟨goString "/apis/" ++
        Join (group :: version :: goString "namespaces" :: ns :: kind :: name :: ss)
          (goString "/")⟩)
      = Join (group :: version :: goString "namespaces" :: goString "{NAMESPACE}" :: kind
          :: goString "{NAME}" :: ss) (goString "/")
    ∧ resourceFrom (some ⟨goString "/api/" ++
        Join (version :: goString "namespaces" :: ns :: kind :: name :: ss) (goString "/")⟩)
      = Join (goString "core" :: version :: goString "namespaces" :: goString "{NAMESPACE}"
          :: kind :: goString "{NAME}" :: ss) (goString "/") := by
  have e1 : goString "/apis/" = 47 :: (goString "apis" ++ goString "/") := by decide
  have e2 : goString "/api/" = 47 :: (goString "api" ++ goString "/") := by decide
  have hmem : ∀ t ∈ version :: goString "namespaces" :: ns :: kind :: name :: ss,
      (47 : UInt8) ∉ t := by
    intro t ht
    simp only [List.mem_cons] at ht
    rcases ht with rfl | rfl | rfl | rfl | rfl | ht
    · exact hv
    · decide
    · exact hns
    · exact hk
    · exact hn
    · exact hss t ht
  constructor
  · have hp : goString "/apis/" ++
        Join (group :: version :: goString "namespaces" :: ns :: kind :: name :: ss)
          (goString "/")
        = 47 :: Join (goString "apis" :: group :: version :: goString "namespaces" :: ns
            :: kind :: name :: ss) (goString "/") := by
      rw [e1, Join_cons_cons (goString "apis")]; simp
    rw [hp, resourceFrom_apis_tokens]
    · simp [placeholders]
    · intro t ht
      rcases List.mem_cons.mp ht with rfl | ht
      · exact hg
      · exact hmem t ht
  · have hp : goString "/api/" ++
        Join (version :: goString "namespaces" :: ns :: kind :: name :: ss) (goString "/")
        = 47 :: Join (goString "api" :: version :: goString "namespaces" :: ns
            :: kind :: name :: ss) (goString "/") := by
      rw [e2, Join_cons_cons (goString "api")]; simp
    rw [hp, resourceFrom_api_tokens _ _ hmem]
    simp [placeholders]

/-- Witness of C8 at `apps/v1`, namespace `ns1`, `deployments/web` with the
trailing segments `scale` and `x`. -/
theorem resourceFrom_namespaced_single_witness :
    resourceFrom (some ⟨goString "/apis/" ++
        Join (goString "apps" :: goString "v1" :: goString "namespaces" :: goString "ns1"
          :: goString "deployments" :: goString "web" :: [goString "scale", goString "x"])
          (goString "/")⟩)
      = Join (goString "apps" :: goString "v1" :: goString "namespaces"
          :: goString "{NAMESPACE}" :: goString "deployments" :: goString "{NAME}"
          :: [goString "scale", goString "x"]) (goString "/")
    ∧ resourceFrom (some ⟨goString "/api/" ++
        Join (goString "v1" :: goString "namespaces" :: goString "ns1"
          :: goString "deployments" :: goString "web" :: [goString "scale", goString "x"])
          (goString "/")⟩)
      = Join (goString "core" :: goString "v1" :: goString "namespaces"
          :: goString "{NAMESPACE}" :: goString "deployments" :: goString "{NAME}"
          :: [goString "scale", goString "x"]) (goString "/") :=
  resourceFrom_namespaced_single (goString "apps") (goString "v1") (goString "ns1")
    (goString "deployments") (goString "web") [goString "scale", goString "x"]
    (by decide) (by decide) (by decide) (by decide) (by decide) (by decide)

/-- C9. Namespaced collection: for `/`-free group, version, ns and kind,
`resourceFrom` on `/apis/{group}/{version}/namespaces/{ns}/{kind}` returns
`{group}/{version}/namespaces/{NAMESPACE}/{kind}`: the kind is kept verbatim
and nothing is replaced by `{NAME}`. -/
theorem resourceFrom_namespaced_collection (group version ns kind : GoString)
    (hg : (47 : UInt8) ∉ group) (hv : (47 : UInt8) ∉ version) (hns : (47 : UInt8) ∉ ns)
    (hk : (47 : UInt8) ∉ kind) :
    resourceFrom (some ⟨goString "/apis/" ++ group ++ goString "/" ++ version
        ++ goString "/namespaces/" ++ ns ++ goString "/" ++ kind⟩)
      = group ++ goString "/" ++ version ++ goString "/namespaces/{NAMESPACE}/" ++ kind := by
  have e1 : goString "/apis/" = 47 :: (goString "apis" ++ goString "/") := by decide
  have e2 : goString "/namespaces/"
      = goString "/" ++ (goString "namespaces" ++ goString "/") := by decide
  have e3 : goString "/namespaces/{NAMESPACE}/"
      = goString "/" ++ (goString "namespaces" ++ (goString "/"
          ++ (goString "{NAMESPACE}" ++ goString "/"))) := by decide
  have hp : goString "/apis/" ++ group ++ goString "/" ++ version
        ++ goString "/namespaces/" ++ ns ++ goString "/" ++ kind
      = 47 :: Join [goString "apis", group, version, goString "namespaces", ns, kind]
          (goString "/") := by
    rw [e1, e2]; simp [Join]
  rw [hp, resourceFrom_apis_tokens, e3]
  · simp [placeholders, Join]
  · intro t ht
    simp only [List.mem_cons, List.mem_singleton, List.not_mem_nil, or_false] at ht
    rcases ht with rfl | rfl | rfl | rfl | rfl
    · exact hg
    · exact hv
    · decide
    · exact hns
    · exact hk

/-- Witness of C9 at `apps/v1`, namespace `ns1`, kind `deployments`. -/
theorem resourceFrom_namespaced_collection_witness :
    resourceFrom (some ⟨goString "/apis/" ++ goString "apps" ++ goString "/" ++ goString "v1"
        ++ goString "/namespaces/" ++ goString "ns1" ++ goString "/"
        ++ goString "deployments"⟩)
      = goString "apps" ++ goString "/" ++ goString "v1"
        ++ goString "/namespaces/{NAMESPACE}/" ++ goString "deployments" :=
  resourceFrom_namespaced_collection (goString "apps") (goString "v1") (goString "ns1")
    (goString "deployments") (by decide) (by decide) (by decide) (by decide)

/-- C10. For every path that begins with `/` and whose first segment (the text
up to the next `/`) is neither `api` nor `apis`, `resourceFrom` returns the
literal `{OTHER}`; the root path `/` is the case of an empty rest. -/
theorem resourceFrom_unrecognised (rest : GoString)
    (h1 : rest.takeWhile (fun b => b != 47) ≠ goString "api")
    (h2 : rest.takeWhile (fun b => b != 47) ≠ goString "apis") :
    resourceFrom (some ⟨goString "/" ++ rest⟩) = goString "{OTHER}" := by
  obtain ⟨ts, hts⟩ := Split_head rest
  have e : goString "/" ++ rest = 47 :: rest := by rw [goString_slash]; rfl
  unfold resourceFrom
  rw [e, resourceFromBody_cons, hts, resourceFromTokens_other _ _ h1 h2]

/-- Witness of C10 at `/healthz` and at the root path `/`. -/
theorem resourceFrom_unrecognised_witness :
    (goString "healthz").takeWhile (fun b => b != 47) ≠ goString "api"
    ∧ (goString "healthz").takeWhile (fun b => b != 47) ≠ goString "apis"
    ∧ resourceFrom (some ⟨goString "/" ++ goString "healthz"⟩) = goString "{OTHER}"
    ∧ resourceFrom (some ⟨goString "/" ++ []⟩) = goString "{OTHER}" :=
  ⟨by decide, by decide,
    resourceFrom_unrecognised (goString "healthz") (by decide) (by decide),
    resourceFrom_unrecognised [] (by decide) (by decide)⟩

/-! ## Claims on the instrumented transport and its installation -/

/-- What `addControllerMetricsTransportWrapper` leaves in the config: whatever
wrapper was registered before, the new one wraps the transport it is given. -/
theorem addControllerMetricsTransportWrapper_apply (cfg : Config) (controllerName : GoString)
    (observer : Option Observer) (t : RoundTripper) :
    (addControllerMetricsTransportWrapper cfg controllerName observer).WrapTransport.map
        (fun wrap => wrap t)
      = some (.controllerMetricsTripper t controllerName observer) := by
  cases cfg with
  | mk wt => cases wt <;> rfl

/-- A round trip through a `controllerMetricsTripper` whose wrapped transport
answers with a response and a nil error, when the collector accepts the
labels. -/
theorem RoundTrip_of_response (wrapped : RoundTripper) (controller : GoString)
    (o : Observer) (hv : HistogramVec) (req : Request) (w w1 : World) (resp : Response)
    (hcoll : o.Collector = some hv)
    (hcall : wrapped.RoundTrip req w = .ok ({ resp := some resp, err := none }, w1))
    (hwith : hv.With
        [ (goString "controller", controller)
        , (goString "method", req.Method)
        , (goString "resource", resourceFrom req.URL)
        , (goString "status", resp.Status) ] = .ok ()) :
    (RoundTripper.controllerMetricsTripper wrapped controller (some o)).RoundTrip req w
      = .ok ({ resp := some resp, err := none },
          { w1 with observations := w1.observations ++
              [{ collector := hv
                 labels :=
                  [ (goString "controller", controller)
                  , (goString "method", req.Method)
                  , (goString "resource", resourceFrom req.URL)
                  , (goString "status", resp.Status) ]
                 elapsed := w1.clock - w.clock }] }) := by
  simp only [RoundTripper.RoundTrip, hcall, Observer.observe, hcoll, hwith, bind, Except.bind,
    pure, Except.pure, if_true]

/-- A round trip through a `controllerMetricsTripper` whose wrapped transport
answers with a response and a nil error, when the collector rejects the
labels: the panic of `With` leaves `RoundTrip`. -/
theorem RoundTrip_of_rejected_labels (wrapped : RoundTripper) (controller : GoString)
    (o : Observer) (hv : HistogramVec) (req : Request) (w w1 : World) (resp : Response)
    (e : Panic)
    (hcoll : o.Collector = some hv)
    (hcall : wrapped.RoundTrip req w = .ok ({ resp := some resp, err := none }, w1))
    (hwith : hv.With
        [ (goString "controller", controller)
        , (goString "method", req.Method)
        , (goString "resource", resourceFrom req.URL)
        , (goString "status", resp.Status) ] = .error e) :
    (RoundTripper.controllerMetricsTripper wrapped controller (some o)).RoundTrip req w
      = .error e := by
  simp only [RoundTripper.RoundTrip, hcall, Observer.observe, hcoll, hwith, bind, Except.bind,
    pure, Except.pure, if_true]

/-- A round trip through a `controllerMetricsTripper` whose wrapped transport
answers with a non-nil error. -/
theorem RoundTrip_of_error (wrapped : RoundTripper) (controller : GoString)
    (observer : Option Observer) (req : Request) (w w1 : World) (res : RoundTripResult)
    (hcall : wrapped.RoundTrip req w = .ok (res, w1)) (herr : res.err ≠ none) :
    (RoundTripper.controllerMetricsTripper wrapped controller observer).RoundTrip req w
      = .ok (res, w1) := by
  simp [RoundTripper.RoundTrip, hcall, herr, bind, Except.bind, pure, Except.pure]

/-- C1. An already registered wrapper is meant to be preserved. Evaluated on a
config whose `WrapTransport` is the layer `f` of controller `a`, and on a
network transport `t`: after the call, `cfg.WrapTransport(t)` is the
instrumented transport that delegates directly to `t`, which differs from the
one wrapping `f(t)`; a round trip through it records one observation, for
controller `b` only, so the layer `f` does not execute. -/
theorem addControllerMetricsTransportWrapper_drops_existing :
    (addControllerMetricsTransportWrapper
        { WrapTransport := some (fun rt =>
            .controllerMetricsTripper rt (goString "a") (some sampleObserver)) }
        (goString "b") (some sampleObserver)).WrapTransport.map
        (fun wrap => wrap (networkTransport replyOK 1))
      = some (.controllerMetricsTripper (networkTransport replyOK 1) (goString "b")
          (some sampleObserver))
    ∧ RoundTripper.controllerMetricsTripper (networkTransport replyOK 1) (goString "b")
          (some sampleObserver)
      ≠ RoundTripper.controllerMetricsTripper
          (RoundTripper.controllerMetricsTripper (networkTransport replyOK 1) (goString "a")
            (some sampleObserver))
          (goString "b") (some sampleObserver)
    ∧ ((RoundTripper.controllerMetricsTripper (networkTransport replyOK 1) (goString "b")
          (some sampleObserver)).RoundTrip getPod world0).toOption.map
        (fun out => out.2.observations.map (fun ob => ob.labels.lookup (goString "controller")))
      = some [some (goString "b")] := by
  refine ⟨rfl, ?_, by decide⟩
  intro h
  injection h with h1
  simp [networkTransport] at h1

/-- C2. The instrumented transport is meant to be transparent. Evaluated on a
`GET` of `/api/v1/%ff` (path byte `0xFF`) that the network answers
`404 Not Found` with a nil error: the wrapped transport returns that pair, but
the resource label `core/v1/` followed by `0xFF` is not valid UTF-8, `With`
panics, and `RoundTrip` of the `controllerMetricsTripper` panics instead of
returning the pair. -/
theorem RoundTrip_panics_instead_of_returning :
    (networkTransport replyNotFound 3).RoundTrip getInvalidName world0
      = .ok (replyNotFound getInvalidName,
          { clock := 3, observations := [], wire := [getInvalidName] })
    ∧ (RoundTripper.controllerMetricsTripper (networkTransport replyNotFound 3) (goString "c")
        (some sampleObserver)).RoundTrip getInvalidName world0
      = .error Panic.invalidLabels
    ∧ ∀ w2, (RoundTripper.controllerMetricsTripper (networkTransport replyNotFound 3)
        (goString "c") (some sampleObserver)).RoundTrip getInvalidName world0
      ≠ .ok (replyNotFound getInvalidName, w2) := by
  have h : (RoundTripper.controllerMetricsTripper (networkTransport replyNotFound 3)
      (goString "c") (some sampleObserver)).RoundTrip getInvalidName world0
      = .error Panic.invalidLabels := by rfl
  refine ⟨rfl, h, ?_⟩
  intro w2 h2
  rw [h] at h2
  exact Except.noConfusion h2

/-- C3. Whenever the wrapped transport returns a non-nil error, the
`controllerMetricsTripper` (whatever its observer) returns the same pair and
leaves exactly the world the wrapped transport left: no observation is
recorded and the error is propagated. On a network transport the observation
log is the one before the call. -/
theorem RoundTrip_error_no_observation (wrapped : RoundTripper) (controller : GoString)
    (observer : Option Observer) (req : Request) (w w1 : World) (res : RoundTripResult)
    (hcall : wrapped.RoundTrip req w = .ok (res, w1))
    (herr : res.err ≠ none) :
    (RoundTripper.controllerMetricsTripper wrapped controller observer).RoundTrip req w
        = .ok (res, w1)
    ∧ (∀ reply latency, (reply req).err ≠ none →
        ∃ w2, (RoundTripper.controllerMetricsTripper (networkTransport reply latency)
            controller observer).RoundTrip req w = .ok (reply req, w2)
          ∧ w2.observations = w.observations) := by
  refine ⟨RoundTrip_of_error wrapped controller observer req w w1 res hcall herr, ?_⟩
  intro reply latency hr
  exact ⟨_, RoundTrip_of_error (networkTransport reply latency) controller observer req w
    { w with clock := w.clock + latency, wire := w.wire ++ [req] } (reply req) rfl hr, rfl⟩

/-- Witness of C3: a `GET` that fails with `connection refused`. -/
theorem RoundTrip_error_no_observation_witness :
    (networkTransport replyRefused 3).RoundTrip getPod world0
        = .ok (replyRefused getPod, { clock := 3, observations := [], wire := [getPod] })
    ∧ (replyRefused getPod).err ≠ none
    ∧ (RoundTripper.controllerMetricsTripper (networkTransport replyRefused 3) (goString "c")
        (some sampleObserver)).RoundTrip getPod world0
        = .ok (replyRefused getPod, { clock := 3, observations := [], wire := [getPod] }) :=
  ⟨rfl, by decide,
    (RoundTrip_error_no_observation (networkTransport replyRefused 3) (goString "c")
      (some sampleObserver) getPod world0
      { clock := 3, observations := [], wire := [getPod] }
      (replyRefused getPod) rfl (by decide)).1⟩

/-- C4. Every round trip that the wrapped transport completes with a nil
error is meant to be counted once. Evaluated on a `GET` of `/api/v1/%ff`
(path byte `0xFF`) that the network answers `200 OK` with a nil error:
`resourceFrom` yields `core/v1/` followed by `0xFF`, which is not valid UTF-8,
so `With` rejects the labels and `RoundTrip` panics; no observation is
recorded. -/
theorem RoundTrip_invalid_label_not_counted :
    (networkTransport replyOK 1).RoundTrip getInvalidName world0
      = .ok ({ resp := some { Status := goString "200 OK", StatusCode := 200 }, err := none },
          { clock := 1, observations := [], wire := [getInvalidName] })
    ∧ resourceFrom getInvalidName.URL = goString "core/v1/" ++ [0xFF]
    ∧ ValidString (goString "core/v1/" ++ [0xFF]) = false
    ∧ sampleCollector.With
        [ (goString "controller", goString "c")
        , (goString "method", getInvalidName.Method)
        , (goString "resource", resourceFrom getInvalidName.URL)
        , (goString "status", goString "200 OK") ] = .error Panic.invalidLabels
    ∧ (RoundTripper.controllerMetricsTripper (networkTransport replyOK 1) (goString "c")
        (some sampleObserver)).RoundTrip getInvalidName world0
      = .error Panic.invalidLabels := by
  refine ⟨rfl, by decide, by decide, by rfl, by rfl⟩

/-! ## Further lemmas on `Split`, `Join` and `ReplaceAll` -/

theorem splitFrom_single_cons (b c : UInt8) (cs : GoString) :
    splitFrom [b] 0 (c :: cs) =
      if c = b then [] :: splitFrom [b] 0 cs
      else match splitFrom [b] 0 cs with
        | [] => [[c]]
        | t :: ts => (c :: t) :: ts := by
  by_cases h : c = b
  · subst h; simp [splitFrom, List.isPrefixOf]
  · have h2 : ¬ b = c := fun h3 => h h3.symm
    simp [splitFrom, List.isPrefixOf, h, h2]

theorem splitFrom_single_ne_nil (b : UInt8) (s : GoString) : splitFrom [b] 0 s ≠ [] := by
  cases s with
  | nil => simp [splitFrom]
  | cons c cs =>
    rw [splitFrom_single_cons]
    split
    · simp
    · split <;> simp

theorem Join_nil_cons (ts : List GoString) (hne : ts ≠ []) (sep : GoString) :
    Join ([] :: ts) sep = sep ++ Join ts sep := by
  cases ts with
  | nil => exact absurd rfl hne
  | cons u us => simp [Join]

theorem Join_cons_head (c : UInt8) (t : GoString) (ts : List GoString) (sep : GoString) :
    Join ((c :: t) :: ts) sep = c :: Join (t :: ts) sep := by
  cases ts with
  | nil => simp [Join]
  | cons u us => simp [Join]

/-- Replacing a one-byte `old` by a one-byte `new` maps every byte. -/
theorem ReplaceAll_single (s : GoString) (b r : UInt8) :
    ReplaceAll s [b] [r] = s.map (fun c => if c = b then r else c) := by
  unfold ReplaceAll Split
  induction s with
  | nil => simp [splitFrom, Join]
  | cons c cs ih =>
    rw [splitFrom_single_cons]
    by_cases h : c = b
    · rw [if_pos h, Join_nil_cons _ (splitFrom_single_ne_nil b cs), ih]
      simp [h]
    · rw [if_neg h]
      cases hs : splitFrom [b] 0 cs with
      | nil => exact absurd hs (splitFrom_single_ne_nil b cs)
      | cons t ts =>
        rw [hs] at ih
        simp only [Join_cons_head, ih, List.map_cons, if_neg h]

/-- No token of a split by `/` contains a `/`. -/
theorem Split_no_slash (s : GoString) : ∀ t ∈ Split s (goString "/"), (47 : UInt8) ∉ t := by
  rw [goString_slash]
  unfold Split
  induction s with
  | nil => simp [splitFrom]
  | cons c cs ih =>
    rw [splitFrom_single_cons]
    by_cases h : c = 47
    · rw [if_pos h]
      intro t ht
      rcases List.mem_cons.mp ht with rfl | ht
      · simp
      · exact ih t ht
    · rw [if_neg h]
      cases hs : splitFrom [47] 0 cs with
      | nil => exact absurd hs (splitFrom_single_ne_nil 47 cs)
      | cons u us =>
        rw [hs] at ih
        intro t ht
        rcases List.mem_cons.mp ht with rfl | ht
        · have hu := ih u (by simp)
          intro hmem
          rcases List.mem_cons.mp hmem with e | e
          · exact h e.symm
          · exact hu e
        · exact ih t (by simp [ht])

/-- Appending the separator to a join adds an empty last token. -/
theorem Join_append_empty (ts : List GoString) (hne : ts ≠ []) (sep : GoString) :
    Join ts sep ++ sep = Join (ts ++ [[]]) sep := by
  induction ts with
  | nil => exact absurd rfl hne
  | cons t us ih =>
    cases us with
    | nil => simp [Join]
    | cons u vs =>
      have h := ih (by simp)
      rw [Join_cons_cons, List.cons_append, List.cons_append, Join_cons_cons,
        ← List.cons_append, ← h]
      simp

/-! ## Further lemmas on `resourceFrom` -/

/-- The label of a path whose split starts with `api`. -/
theorem resourceFrom_of_Split_api (c : UInt8) (rest : GoString) (ts : List GoString)
    (h : Split rest (goString "/") = goString "api" :: ts) :
    resourceFromBody (some ⟨c :: rest⟩)
        = .ok (Join (placeholders (goString "core" :: ts)) (goString "/"))
    ∧ resourceFrom (some ⟨c :: rest⟩)
        = Join (placeholders (goString "core" :: ts)) (goString "/") := by
  have hb : resourceFromBody (some ⟨c :: rest⟩)
      = .ok (Join (placeholders (goString "core" :: ts)) (goString "/")) := by
    rw [resourceFromBody_cons, h, resourceFromTokens_api]
  exact ⟨hb, by unfold resourceFrom; rw [hb]⟩

/-- The label of a path whose split starts with `apis`. -/
theorem resourceFrom_of_Split_apis (c : UInt8) (rest : GoString) (ts : List GoString)
    (h : Split rest (goString "/") = goString "apis" :: ts) :
    resourceFromBody (some ⟨c :: rest⟩) = .ok (Join (placeholders ts) (goString "/"))
    ∧ resourceFrom (some ⟨c :: rest⟩) = Join (placeholders ts) (goString "/") := by
  have hb : resourceFromBody (some ⟨c :: rest⟩)
      = .ok (Join (placeholders ts) (goString "/")) := by
    rw [resourceFromBody_cons, h, resourceFromTokens_apis]
  exact ⟨hb, by unfold resourceFrom; rw [hb]⟩

/-- The substitutions keep the number of tokens. -/
theorem placeholders_length (tokens : List GoString) :
    (placeholders tokens).length = tokens.length := by
  unfold placeholders
  simp only []
  split_ifs <;> simp

/-- The substitutions leave every index other than 3 and 5 alone. -/
theorem placeholders_getElem? (tokens : List GoString) (i : Nat) (h3 : i ≠ 3) (h5 : i ≠ 5) :
    (placeholders tokens)[i]? = tokens[i]? := by
  have e3 : ¬ 3 = i := fun e => h3 e.symm
  have e5 : ¬ 5 = i := fun e => h5 e.symm
  unfold placeholders
  simp only []
  split_ifs <;> simp [List.getElem?_set, e3, e5]

/-- Index 3 holds the input token, `{NAME}` or `{NAMESPACE}`. -/
theorem placeholders_getElem?_three (tokens : List GoString) :
    (placeholders tokens)[3]? = tokens[3]?
    ∨ (placeholders tokens)[3]? = some (goString "{NAME}")
    ∨ (placeholders tokens)[3]? = some (goString "{NAMESPACE}") := by
  unfold placeholders
  simp only []
  split_ifs with h1 h2 h3 h4 h5 <;> simp only [List.length_set] at * <;>
    simp [List.getElem?_set] <;> omega

/-- Index 5 holds the input token or `{NAME}`. -/
theorem placeholders_getElem?_five (tokens : List GoString) :
    (placeholders tokens)[5]? = tokens[5]?
    ∨ (placeholders tokens)[5]? = some (goString "{NAME}") := by
  unfold placeholders
  simp only []
  split_ifs with h1 h2 h3 h4 h5 <;> simp only [List.length_set] at * <;>
    simp [List.getElem?_set] <;> omega

/-- The substitutions keep tokens free of `/`. -/
theorem placeholders_no_slash (tokens : List GoString)
    (h : ∀ t ∈ tokens, (47 : UInt8) ∉ t) :
    ∀ t ∈ placeholders tokens, (47 : UInt8) ∉ t := by
  have hname : (47 : UInt8) ∉ goString "{NAME}" := by decide
  have hns : (47 : UInt8) ∉ goString "{NAMESPACE}" := by decide
  have hset : ∀ (l : List GoString) (i : Nat) (v : GoString),
      (∀ t ∈ l, (47 : UInt8) ∉ t) → (47 : UInt8) ∉ v → ∀ t ∈ l.set i v, (47 : UInt8) ∉ t := by
    intro l i v hl hv t ht
    rcases List.mem_or_eq_of_mem_set ht with h1 | h1
    · exact hl t h1
    · rw [h1]; exact hv
  unfold placeholders
  simp only []
  split_ifs
  · exact hset _ _ _ (hset _ _ _ (hset _ _ _ h hname) hns) hname
  · exact hset _ _ _ (hset _ _ _ h hname) hns
  · exact hset _ _ _ h hname
  · exact hset _ _ _ (hset _ _ _ h hns) hname
  · exact hset _ _ _ h hns
  · exact h

/-! ## Further claims on `resourceFrom` -/

/-- C11. `resourceFrom` is total and every internal failure resolves to the
literal `{OTHER}`. On a nil URL the body fails on the dereference and the label
is `{OTHER}`; on the empty path the body fails on the out-of-range slice and
the label is `{OTHER}`; on a non-empty path whose first segment (the text
after the first byte, up to the next `/`) is neither `api` nor `apis` the body
punts with `panic(1)` and the label is `{OTHER}`; on a non-empty path whose
first segment is `api` or `apis` the body does not fail and the label is the
join of the rewritten tokens after substitution. These cases cover every URL,
and whenever the body fails, with whatever panic, the label is `{OTHER}`. -/
theorem resourceFrom_total :
    (resourceFromBody none = .error Panic.nilDereference
      ∧ resourceFrom none = goString "{OTHER}")
    ∧ (resourceFromBody (some ⟨[]⟩) = .error Panic.sliceBounds
      ∧ resourceFrom (some ⟨[]⟩) = goString "{OTHER}")
    ∧ (∀ (c : UInt8) (rest : GoString),
        rest.takeWhile (fun b => b != 47) ≠ goString "api" →
        rest.takeWhile (fun b => b != 47) ≠ goString "apis" →
        resourceFromBody (some ⟨c :: rest⟩) = .error (Panic.value 1)
        ∧ resourceFrom (some ⟨c :: rest⟩) = goString "{OTHER}")
    ∧ (∀ (c : UInt8) (rest : GoString),
        rest.takeWhile (fun b => b != 47) = goString "api" →
        resourceFromBody (some ⟨c :: rest⟩)
          = .ok (Join (placeholders (goString "core" :: (Split rest (goString "/")).tail))
              (goString "/"))
        ∧ resourceFrom (some ⟨c :: rest⟩)
          = Join (placeholders (goString "core" :: (Split rest (goString "/")).tail))
              (goString "/"))
    ∧ (∀ (c : UInt8) (rest : GoString),
        rest.takeWhile (fun b => b != 47) = goString "apis" →
        resourceFromBody (some ⟨c :: rest⟩)
          = .ok (Join (placeholders (Split rest (goString "/")).tail) (goString "/"))
        ∧ resourceFrom (some ⟨c :: rest⟩)
          = Join (placeholders (Split rest (goString "/")).tail) (goString "/"))
    ∧ (∀ (url : Option URL) (e : Panic),
        resourceFromBody url = .error e → resourceFrom url = goString "{OTHER}") := by
  refine ⟨⟨rfl, rfl⟩, ⟨rfl, rfl⟩, ?_, ?_, ?_, ?_⟩
  · intro c rest h1 h2
    obtain ⟨ts, hts⟩ := Split_head rest
    have hb : resourceFromBody (some ⟨c :: rest⟩) = .error (Panic.value 1) := by
      rw [resourceFromBody_cons, hts, resourceFromTokens_other _ _ h1 h2]
    exact ⟨hb, by unfold resourceFrom; rw [hb]⟩
  · intro c rest h1
    obtain ⟨ts, hts⟩ := Split_head rest
    rw [h1] at hts
    rw [hts]
    exact resourceFrom_of_Split_api c rest ts hts
  · intro c rest h1
    obtain ⟨ts, hts⟩ := Split_head rest
    rw [h1] at hts
    rw [hts]
    exact resourceFrom_of_Split_apis c rest ts hts
  · intro url e he
    unfold resourceFrom
    rw [he]

/-- Witness of C11 at `/healthz` (unknown prefix) and at `/api/v1/pods/p`. -/
theorem resourceFrom_total_witness :
    (resourceFromBody (some ⟨47 :: goString "healthz"⟩) = .error (Panic.value 1)
      ∧ resourceFrom (some ⟨47 :: goString "healthz"⟩) = goString "{OTHER}")
    ∧ resourceFrom (some ⟨47 :: goString "api/v1/pods/p"⟩)
      = Join (placeholders (goString "core"
          :: (Split (goString "api/v1/pods/p") (goString "/")).tail)) (goString "/")
    ∧ Join (placeholders (goString "core"
          :: (Split (goString "api/v1/pods/p") (goString "/")).tail)) (goString "/")
      = goString "core/v1/pods/{NAME}" :=
  ⟨resourceFrom_total.2.2.1 47 (goString "healthz") (by decide) (by decide),
    (resourceFrom_total.2.2.2.1 47 (goString "api/v1/pods/p") (by decide)).2,
    by decide⟩

/-- C12, as stated, fails: the empty segment after a trailing `/` is kept, so
`/api/v1/pods/` has four tokens and is labelled `core/v1/pods/{NAME}`, while
`/api/v1/pods` is labelled `core/v1/pods`; the empty segment of a doubled `/`
is kept too, so `/api//v1/pods` is labelled `core//v1/{NAME}` and
`//api/v1/pods` is labelled `{OTHER}`. -/
theorem resourceFrom_trailing_slash_differs :
    Split (goString "api/v1/pods/") (goString "/")
      = [goString "api", goString "v1", goString "pods", []]
    ∧ resourceFrom (urlOf "/api/v1/pods") = goString "core/v1/pods"
    ∧ resourceFrom (urlOf "/api/v1/pods/") = goString "core/v1/pods/{NAME}"
    ∧ resourceFrom (urlOf "/api/v1/pods/") ≠ resourceFrom (urlOf "/api/v1/pods")
    ∧ resourceFrom (urlOf "/api//v1/pods") = goString "core//v1/{NAME}"
    ∧ resourceFrom (urlOf "//api/v1/pods") = goString "{OTHER}" := by
  refine ⟨by decide, by decide, by decide, by decide, by decide, by decide⟩

/-- C12, amended. `resourceFrom` splits the path at every `/` and keeps empty
segments as tokens. For every list `ts` of `/`-free tokens (empty tokens
allowed, as a doubled `/` produces), the path `/api/ts..` is classified on the
tokens `core, ts..` and `/apis/ts..` on the tokens `ts..`; the same paths with
a trailing `/` appended are classified on those tokens followed by one empty
token. -/
theorem resourceFrom_keeps_empty_segments (ts : List GoString)
    (h : ∀ t ∈ ts, (47 : UInt8) ∉ t) :
    resourceFrom (some ⟨goString "/" ++ Join (goString "api" :: ts) (goString "/")⟩)
      = Join (placeholders (goString "core" :: ts)) (goString "/")
    ∧ resourceFrom (some ⟨goString "/" ++ Join (goString "apis" :: ts) (goString "/")⟩)
      = Join (placeholders ts) (goString "/")
    ∧ resourceFrom (some ⟨goString "/" ++ Join (goString "api" :: ts) (goString "/")
        ++ goString "/"⟩)
      = Join (placeholders (goString "core" :: (ts ++ [[]]))) (goString "/")
    ∧ resourceFrom (some ⟨goString "/" ++ Join (goString "apis" :: ts) (goString "/")
        ++ goString "/"⟩)
      = Join (placeholders (ts ++ [[]])) (goString "/") := by
  have e : ∀ x : GoString, goString "/" ++ x = 47 :: x := by
    intro x; rw [goString_slash]; rfl
  have h2 : ∀ t ∈ ts ++ [[]], (47 : UInt8) ∉ t := by
    intro t ht
    rcases List.mem_append.mp ht with ht | ht
    · exact h t ht
    · simp only [List.mem_singleton] at ht
      rw [ht]; simp
  refine ⟨?_, ?_, ?_, ?_⟩
  · rw [e]; exact resourceFrom_api_tokens _ ts h
  · rw [e]; exact resourceFrom_apis_tokens _ ts h
  · rw [List.append_assoc, Join_append_empty _ (by simp), e]
    exact resourceFrom_api_tokens _ (ts ++ [[]]) h2
  · rw [List.append_assoc, Join_append_empty _ (by simp), e]
    exact resourceFrom_apis_tokens _ (ts ++ [[]]) h2

/-- Witness of the amended C12 at the tokens `v1`, `pods`: `/api/v1/pods/` is
classified on `core, v1, pods` and an empty token. -/
theorem resourceFrom_keeps_empty_segments_witness :
    (∀ t ∈ [goString "v1", goString "pods"], (47 : UInt8) ∉ t)
    ∧ resourceFrom (some ⟨goString "/"
        ++ Join (goString "api" :: [goString "v1", goString "pods"]) (goString "/")
        ++ goString "/"⟩)
      = Join (placeholders (goString "core" :: ([goString "v1", goString "pods"] ++ [[]])))
          (goString "/") :=
  ⟨by decide,
    (resourceFrom_keeps_empty_segments [goString "v1", goString "pods"] (by decide)).2.2.1⟩

/-- C16. Recognised-prefix paths that match no placeholder case are returned
as-is. For a path whose split (after the first byte) starts with `api` or
`apis`, let `rewritten` be the tokens with `api` replaced by `core`, or with
`apis` dropped. If `rewritten` has fewer than 4 tokens, or more than 4 with
token index 2 different from `namespaces`, the body does not fail and
`resourceFrom` returns `rewritten` joined by `/`, no token being replaced. -/
theorem resourceFrom_unmatched_as_is (c : UInt8) (rest : GoString)
    (ts rewritten : List GoString)
    (hrw : (Split rest (goString "/") = goString "api" :: ts
              ∧ rewritten = goString "core" :: ts)
          ∨ (Split rest (goString "/") = goString "apis" :: ts ∧ rewritten = ts))
    (hcase : rewritten.length < 4
          ∨ (4 < rewritten.length ∧ rewritten[2]? ≠ some (goString "namespaces"))) :
    resourceFromBody (some ⟨c :: rest⟩) = .ok (Join rewritten (goString "/"))
    ∧ resourceFrom (some ⟨c :: rest⟩) = Join rewritten (goString "/")
    ∧ placeholders rewritten = rewritten := by
  have hp : placeholders rewritten = rewritten := by
    unfold placeholders
    simp only []
    rcases hcase with h | ⟨h, h2⟩
    · have h4 : ¬ rewritten.length = 4 := by omega
      have h5 : ¬ rewritten.length > 4 := by omega
      simp [h4, h5]
    · have h4 : ¬ rewritten.length = 4 := by omega
      simp [h4, h2]
  rcases hrw with ⟨hs, rfl⟩ | ⟨hs, rfl⟩
  · obtain ⟨hb, hr⟩ := resourceFrom_of_Split_api c rest ts hs
    rw [hp] at hb hr
    exact ⟨hb, hr, hp⟩
  · obtain ⟨hb, hr⟩ := resourceFrom_of_Split_apis c rest rewritten hs
    rw [hp] at hb hr
    exact ⟨hb, hr, hp⟩

/-- Witness of C16: `/api` gives `core`, `/apis` gives the empty string, and
`/apis/a/b/c/d/e` (more than 4 tokens, token 2 not `namespaces`) gives
`a/b/c/d/e`. -/
theorem resourceFrom_unmatched_as_is_witness :
    resourceFrom (some ⟨47 :: goString "api"⟩) = Join [goString "core"] (goString "/")
    ∧ Join [goString "core"] (goString "/") = goString "core"
    ∧ resourceFrom (some ⟨47 :: goString "apis"⟩) = Join [] (goString "/")
    ∧ Join [] (goString "/") = []
    ∧ resourceFrom (some ⟨47 :: goString "apis/a/b/c/d/e"⟩)
      = Join [goString "a", goString "b", goString "c", goString "d", goString "e"]
          (goString "/") :=
  ⟨(resourceFrom_unmatched_as_is 47 (goString "api") [] [goString "core"]
      (Or.inl ⟨by decide, rfl⟩) (Or.inl (by decide))).2.1,
    by decide,
    (resourceFrom_unmatched_as_is 47 (goString "apis") [] []
      (Or.inr ⟨by decide, rfl⟩) (Or.inl (by decide))).2.1,
    rfl,
    (resourceFrom_unmatched_as_is 47 (goString "apis/a/b/c/d/e")
      [goString "a", goString "b", goString "c", goString "d", goString "e"]
      [goString "a", goString "b", goString "c", goString "d", goString "e"]
      (Or.inr ⟨by decide, rfl⟩) (Or.inr ⟨by decide, by decide⟩)).2.1⟩

/-- C17, as stated, fails on the bare `/apis`: its rewritten token sequence is
empty (the split of `apis` is the single token `apis`, which is dropped) and
the output is the empty string, which has one `/`-separated token, not zero.
The path `/apis/`, whose rewritten sequence is the one empty token, gives the
same output. -/
theorem resourceFrom_apis_token_count :
    Split (goString "apis") (goString "/") = [goString "apis"]
    ∧ resourceFrom (urlOf "/apis") = []
    ∧ (Split (resourceFrom (urlOf "/apis")) (goString "/")).length = 1
    ∧ (Split (resourceFrom (urlOf "/apis")) (goString "/")).length
        ≠ ((Split (goString "apis") (goString "/")).tail).length
    ∧ Split (goString "apis/") (goString "/") = [goString "apis", []]
    ∧ resourceFrom (urlOf "/apis/") = resourceFrom (urlOf "/apis") := by
  refine ⟨by decide, by decide, by decide, by decide, by decide, by decide⟩

/-- C17, amended. Placeholder substitution is a frame-preserving rewrite. For
a path whose split (after the first byte) starts with `api` or `apis`, let
`rewritten` be the tokens with `api` replaced by `core`, or with `apis`
dropped. When `rewritten` is not empty (every such path but the bare `/apis`),
the output of `resourceFrom` split at `/` has exactly as many tokens as
`rewritten`; every token at an index other than 3 and 5 is the token of
`rewritten` there; index 3 holds the input token, `{NAME}` or `{NAMESPACE}`,
and index 5 the input token or `{NAME}`. -/
theorem resourceFrom_frame (c : UInt8) (rest : GoString) (ts rewritten : List GoString)
    (hrw : (Split rest (goString "/") = goString "api" :: ts
              ∧ rewritten = goString "core" :: ts)
          ∨ (Split rest (goString "/") = goString "apis" :: ts ∧ rewritten = ts))
    (hne : rewritten ≠ []) :
    (Split (resourceFrom (some ⟨c :: rest⟩)) (goString "/")).length = rewritten.length
    ∧ (∀ i, i ≠ 3 → i ≠ 5 →
        (Split (resourceFrom (some ⟨c :: rest⟩)) (goString "/"))[i]? = rewritten[i]?)
    ∧ ((Split (resourceFrom (some ⟨c :: rest⟩)) (goString "/"))[3]? = rewritten[3]?
        ∨ (Split (resourceFrom (some ⟨c :: rest⟩)) (goString "/"))[3]?
            = some (goString "{NAME}")
        ∨ (Split (resourceFrom (some ⟨c :: rest⟩)) (goString "/"))[3]?
            = some (goString "{NAMESPACE}"))
    ∧ ((Split (resourceFrom (some ⟨c :: rest⟩)) (goString "/"))[5]? = rewritten[5]?
        ∨ (Split (resourceFrom (some ⟨c :: rest⟩)) (goString "/"))[5]?
            = some (goString "{NAME}")) := by
  have hlabel : resourceFrom (some ⟨c :: rest⟩)
      = Join (placeholders rewritten) (goString "/") := by
    rcases hrw with ⟨hs, rfl⟩ | ⟨hs, rfl⟩
    · exact (resourceFrom_of_Split_api c rest ts hs).2
    · exact (resourceFrom_of_Split_apis c rest rewritten hs).2
  have hfree : ∀ t ∈ rewritten, (47 : UInt8) ∉ t := by
    have hall := Split_no_slash rest
    rcases hrw with ⟨hs, rfl⟩ | ⟨hs, rfl⟩
    · rw [hs] at hall
      intro t ht
      rcases List.mem_cons.mp ht with rfl | ht
      · decide
      · exact hall t (by simp [ht])
    · rw [hs] at hall
      intro t ht
      exact hall t (by simp [ht])
  have hsplit : Split (resourceFrom (some ⟨c :: rest⟩)) (goString "/")
      = placeholders rewritten := by
    rw [hlabel]
    apply Split_Join _ _ (placeholders_no_slash _ hfree)
    intro hnil
    have hl := placeholders_length rewritten
    rw [hnil] at hl
    exact hne (List.length_eq_zero.mp hl.symm)
  rw [hsplit]
  exact ⟨placeholders_length _, fun i h3 h5 => placeholders_getElem? _ i h3 h5,
    placeholders_getElem?_three _, placeholders_getElem?_five _⟩

/-- Witness of the amended C17 at `/api/v1/namespaces/ns1/pods/p1/status`. -/
theorem resourceFrom_frame_witness :
    (Split (resourceFrom (some ⟨47 :: goString "api/v1/namespaces/ns1/pods/p1/status"⟩))
        (goString "/")).length
      = [goString "core", goString "v1", goString "namespaces", goString "ns1",
          goString "pods", goString "p1", goString "status"].length
    ∧ (∀ i, i ≠ 3 → i ≠ 5 →
        (Split (resourceFrom (some ⟨47 :: goString "api/v1/namespaces/ns1/pods/p1/status"⟩))
          (goString "/"))[i]?
        = [goString "core", goString "v1", goString "namespaces", goString "ns1",
            goString "pods", goString "p1", goString "status"][i]?) :=
  have h := resourceFrom_frame 47
    (goString "api/v1/namespaces/ns1/pods/p1/status")
    [goString "v1", goString "namespaces", goString "ns1", goString "pods", goString "p1",
      goString "status"]
    [goString "core", goString "v1", goString "namespaces", goString "ns1", goString "pods",
      goString "p1", goString "status"]
    (Or.inl ⟨by decide, rfl⟩) (by simp)
  ⟨h.1, h.2.1⟩

/-- C18, as stated, fails for a first character of more than one byte: the
paths `éapi/v1/pods/p` and `/api/v1/pods/p` are the same text after their
first character, yet the first is labelled `{OTHER}` (only the first byte of
`é` is dropped, the second stays in token 0) and the second
`core/v1/pods/{NAME}`. -/
theorem resourceFrom_first_character_multibyte :
    ("éapi/v1/pods/p".toList).tail = ("/api/v1/pods/p".toList).tail
    ∧ resourceFrom (urlOf "éapi/v1/pods/p") = goString "{OTHER}"
    ∧ resourceFrom (urlOf "/api/v1/pods/p") = goString "core/v1/pods/{NAME}"
    ∧ resourceFrom (urlOf "éapi/v1/pods/p") ≠ resourceFrom (urlOf "/api/v1/pods/p") := by
  refine ⟨by decide, by decide, by decide, by decide⟩

/-- C18, amended. `resourceFrom` drops the first byte of the path
unconditionally, without checking that it is `/`: for every first byte and
every rest, the label depends on the rest only, so `xapi/v1/pods/p` is
classified exactly like `/api/v1/pods/p` and yields `core/v1/pods/{NAME}`
rather than `{OTHER}`. -/
theorem resourceFrom_first_byte_ignored (c d : UInt8) (rest : GoString) :
    resourceFrom (some ⟨c :: rest⟩) = resourceFrom (some ⟨d :: rest⟩)
    ∧ resourceFrom (urlOf "xapi/v1/pods/p") = resourceFrom (urlOf "/api/v1/pods/p")
    ∧ resourceFrom (urlOf "xapi/v1/pods/p") = goString "core/v1/pods/{NAME}" := by
  refine ⟨?_, by decide, by decide⟩
  unfold resourceFrom
  rw [resourceFromBody_cons, resourceFromBody_cons]

/-! ## Further claims on the observer and on the installation -/

/-- C13. Two layers installed in sequence are meant to both observe. Evaluated
on a config without wrapper, on which a layer for controller `a` and then a
layer for controller `b` are installed: `cfg.WrapTransport(t)` is the
instrumented transport of `b` delegating directly to `t`, and a `GET` answered
`200 OK` through it records one observation in all, for controller `b`; the
layer of controller `a` is dropped. -/
theorem two_layers_only_last_observes :
    (addControllerMetricsTransportWrapper
        (addControllerMetricsTransportWrapper { WrapTransport := none } (goString "a")
          (some sampleObserver))
        (goString "b") (some sampleObserver)).WrapTransport.map
        (fun wrap => wrap (networkTransport replyOK 1))
      = some (.controllerMetricsTripper (networkTransport replyOK 1) (goString "b")
          (some sampleObserver))
    ∧ (addControllerMetricsTransportWrapper
        (addControllerMetricsTransportWrapper { WrapTransport := none } (goString "a")
          (some sampleObserver))
        (goString "b") (some sampleObserver)).WrapTransport.map
        (fun wrap => ((wrap (networkTransport replyOK 1)).RoundTrip getPod world0).toOption.map
          (fun out => out.2.observations.map
            (fun ob => ob.labels.lookup (goString "controller"))))
      = some (some [some (goString "b")])
    ∧ (addControllerMetricsTransportWrapper
        (addControllerMetricsTransportWrapper { WrapTransport := none } (goString "a")
          (some sampleObserver))
        (goString "b") (some sampleObserver)).WrapTransport.map
        (fun wrap => ((wrap (networkTransport replyOK 1)).RoundTrip getPod world0).toOption.map
          (fun out => (out.2.observations.filter
            (fun ob => ob.labels.lookup (goString "controller") == some (goString "a"))).length))
      = some (some 0) := by
  refine ⟨rfl, by decide, by decide⟩

/-- C14. For every operator name `n`, the collector of `NewAPICallObserver n`
has the metric name `n` with every `-` (byte 45) replaced by `_` (byte 95),
followed by `_api_request_duration_seconds`, and this name contains no `-`;
its constant labels are `name = n`, unmodified; its dynamic labels are exactly
`controller`, `method`, `resource`, `status`; its only bucket boundary is 1. -/
theorem NewAPICallObserver_config (n : GoString) :
    ∃ hv : HistogramVec,
      (NewAPICallObserver n).Collector = some hv
      ∧ hv.opts.Name = n.map (fun c => if c = 45 then 95 else c)
          ++ goString "_api_request_duration_seconds"
      ∧ (45 : UInt8) ∉ hv.opts.Name
      ∧ hv.opts.ConstLabels = [(goString "name", n)]
      ∧ hv.labelNames
          = [goString "controller", goString "method", goString "resource", goString "status"]
      ∧ hv.opts.Buckets = [1] := by
  have e1 : goString "-" = [45] := by decide
  have e2 : goString "_" = [95] := by decide
  have hname : ReplaceAll n (goString "-") (goString "_")
      = n.map (fun c => if c = 45 then 95 else c) := by
    rw [e1, e2, ReplaceAll_single]
  have hsuffix : (45 : UInt8) ∉ goString "_api_request_duration_seconds" := by decide
  have hmap : (45 : UInt8) ∉ n.map (fun c => if c = 45 then 95 else c) := by
    intro hmem
    obtain ⟨c, _, hc⟩ := List.mem_map.mp hmem
    by_cases h : c = 45
    · rw [if_pos h] at hc
      exact absurd hc (by decide)
    · rw [if_neg h] at hc
      exact h hc
  refine ⟨_, rfl, ?_, ?_, rfl, rfl, rfl⟩
  · simp only [NewHistogramVec, hname]
  · simp only [NewHistogramVec, hname]
    intro hmem
    rcases List.mem_append.mp hmem with h | h
    · exact hmap h
    · exact hsuffix h

/-- C15. When the config has no wrapper registered, after
`addControllerMetricsTransportWrapper cfg c o` the registered wrapper applied
to any base transport `t` is the instrumented transport that delegates
directly to `t` and carries the controller `c` and the observer `o`. -/
theorem addControllerMetricsTransportWrapper_fresh (cfg : Config) (c : GoString)
    (o : Option Observer) (t : RoundTripper) (h : cfg.WrapTransport.isNone = true) :
    (addControllerMetricsTransportWrapper cfg c o).WrapTransport.map (fun wrap => wrap t)
      = some (.controllerMetricsTripper t c o) := by
  cases cfg with
  | mk wt =>
    cases wt with
    | none => rfl
    | some f => simp at h

/-- Witness of C15 on the config without wrapper, for controller `c` and the
sample observer. -/
theorem addControllerMetricsTransportWrapper_fresh_witness :
    (addControllerMetricsTransportWrapper { WrapTransport := none } (goString "c")
        (some sampleObserver)).WrapTransport.map
        (fun wrap => wrap (networkTransport replyOK 1))
      = some (.controllerMetricsTripper (networkTransport replyOK 1) (goString "c")
          (some sampleObserver)) :=
  addControllerMetricsTransportWrapper_fresh { WrapTransport := none } (goString "c")
    (some sampleObserver) (networkTransport replyOK 1) rfl

end apicall
